import Mathlib

/-!
Verification development for the trafficManagement repository.

The Python sources (traffic_classic.py, server.py) are shallowly embedded:
floats become rationals, the Mesa MultiGrid becomes explicit lists of road
cells, intersection cells and cars, and the per-tick mutation becomes a pure
state-transition function on a `Model` record.  The RNG stream of the world
is an explicit function `Nat → ℚ` consumed via a counter, mirroring
successive calls of `self.random.random()`.
-/

/-- The four compass directions (DIRECTIONS keys in traffic_classic.py). -/
inductive Dir
  | E
  | W
  | N
  | S
deriving DecidableEq, BEq, Repr, Inhabited

/-- DIRECTIONS: unit displacement of each direction. -/
def dirDelta : Dir → Int × Int
  | Dir.E => (1, 0)
  | Dir.W => (-1, 0)
  | Dir.N => (0, 1)
  | Dir.S => (0, -1)

/-- Zone dataclass: named rectangle with a base arrival intensity. -/
structure Zone where
  name : String
  x0 : Int
  y0 : Int
  x1 : Int
  y1 : Int
  baseSpawn : ℚ
deriving DecidableEq, Repr

/-- Zone.contains: inclusive rectangle membership. -/
def Zone.contains (z : Zone) (p : Int × Int) : Bool :=
  decide (z.x0 ≤ p.1 ∧ p.1 ≤ z.x1 ∧ z.y0 ≤ p.2 ∧ p.2 ≤ z.y1)

/-- clamp from traffic_classic.py: max(lo, min(hi, v)). -/
def clamp (v lo hi : ℚ) : ℚ := max lo (min hi v)

/-- RoadAgent: a street cell with a lane direction and a zone tag. -/
structure RoadCell where
  uid : Nat
  pos : Int × Int
  direction : Dir
  zoneName : String
deriving DecidableEq, Repr

/-- IntersectionAgent: crossing cell, possibly signal-controlled. -/
structure InterCell where
  uid : Nat
  pos : Int × Int
  hasLight : Bool
  greenDirs : List Dir
  phase : Nat
  t : Nat
  cycle : Nat
deriving DecidableEq, Repr

/-- Placeholder intersection cell used as the default of list lookups. -/
def dummyInter : InterCell :=
  { uid := 0, pos := (0, 0), hasLight := false, greenDirs := [],
    phase := 0, t := 0, cycle := 0 }

/-- CarAgent: fixed direction, rational speed, wait counter, position. -/
structure Car where
  uid : Nat
  direction : Dir
  vmax : ℚ
  accel : ℚ
  speed : ℚ
  waitTime : Nat
  pos : Int × Int
deriving DecidableEq, Repr

/-- TrafficModel state: grid dimensions, configuration attributes set in
__init__, the road network, the live cars (in schedule insertion order) and
the world's random stream with its consumption counter. -/
structure Model where
  width : Nat
  height : Nat
  secondsPerTick : ℚ
  baseSpawnScale : ℚ
  minuteOfDay : Nat
  uid : Nat
  zones : List Zone
  signalMode : String
  lightCycle : Nat
  minGreenTime : Nat
  maxGreenTime : Nat
  switchThreshold : Nat
  detectionRange : Nat
  hAvenues : List Int
  vAvenues : List Int
  roads : List RoadCell
  inters : List InterCell
  cars : List Car
  rand : Nat → ℚ
  rcount : Nat

/-- MultiGrid.out_of_bounds: position outside [0,width) × [0,height). -/
def gridOutOfBounds (w h : Nat) (p : Int × Int) : Bool :=
  decide (p.1 < 0 ∨ (w : Int) ≤ p.1 ∨ p.2 < 0 ∨ (h : Int) ≤ p.2)

/-- CarAgent._cell_has_car: some car occupies the position. -/
def cellHasCar (cars : List Car) (p : Int × Int) : Bool :=
  cars.any fun c => c.pos = p

/-- CarAgent._get_intersection: first intersection cell at the position. -/
def getIntersection (inters : List InterCell) (p : Int × Int) : Option InterCell :=
  inters.find? fun c => c.pos = p

/-- CarAgent._road_direction_ok: an intersection admits every direction, a
road cell only a matching lane direction, anything else refuses entry. -/
def roadDirectionOk (roads : List RoadCell) (inters : List InterCell)
    (p : Int × Int) (d : Dir) : Bool :=
  if inters.any (fun c => c.pos = p) then true
  else
    let rs := roads.filter fun r => r.pos = p
    if rs.isEmpty then false
    else rs.any fun r => r.direction = d

/-- IntersectionAgent.is_green_for. -/
def InterCell.isGreenFor (i : InterCell) (d : Dir) : Bool :=
  if !i.hasLight then true
  else if i.phase = 0 then i.greenDirs.contains d
  else if i.greenDirs = [Dir.E, Dir.W] then d = Dir.N ∨ d = Dir.S
  else if i.greenDirs = [Dir.N, Dir.S] then d = Dir.E ∨ d = Dir.W
  else true

/-- CarAgent._next_pos / _pos_after: one cell further in a direction. -/
def nextPos (d : Dir) (p : Int × Int) : Int × Int :=
  (p.1 + (dirDelta d).1, p.2 + (dirDelta d).2)

/-- CarAgent.step.  `occ` is the current occupancy list (all cars still on
the grid, with positions as already updated earlier in this tick's pass).
Returns the updated car and whether it was appended to `to_remove`. -/
def carStep (m : Model) (occ : List Car) (c : Car) : Car × Bool :=
  let c := { c with speed := clamp (c.speed + c.accel) 0 c.vmax }
  let nxt := nextPos c.direction c.pos
  if gridOutOfBounds m.width m.height nxt then (c, true)
  else if !(roadDirectionOk m.roads m.inters nxt c.direction) then (c, true)
  else if cellHasCar occ nxt then
    ({ c with speed := 0, waitTime := c.waitTime + 1 }, false)
  else
    match getIntersection m.inters nxt with
    | some i =>
      if i.hasLight && !(i.isGreenFor c.direction) then
        ({ c with speed := 0, waitTime := c.waitTime + 1 }, false)
      else
        let after := nextPos c.direction nxt
        if !(gridOutOfBounds m.width m.height after) &&
            (!(roadDirectionOk m.roads m.inters after c.direction) ||
              cellHasCar occ after) then
          ({ c with speed := 0, waitTime := c.waitTime + 1 }, false)
        else if c.speed > 1/2 then ({ c with pos := nxt }, false)
        else ({ c with waitTime := c.waitTime + 1 }, false)
    | none =>
      if c.speed > 1/2 then ({ c with pos := nxt }, false)
      else ({ c with waitTime := c.waitTime + 1 }, false)

/-- The car loop of TrafficModel.step: cars are visited in list order; each
car's decision sees the already-updated positions of earlier cars and the
pre-tick positions of later ones; removal-marked cars stay on the grid until
the pass ends. -/
def stepCarsAux (m : Model) (done : List (Car × Bool)) : List Car → List (Car × Bool)
  | [] => done
  | c :: rest =>
    let occ := (done.map Prod.fst) ++ (c :: rest)
    let r := carStep m occ c
    stepCarsAux m (done ++ [r]) rest

/-- Car pass of the tick followed by the removal of marked cars. -/
def runCars (m : Model) : Model :=
  let processed := stepCarsAux m [] m.cars
  { m with cars := (processed.filter fun p => !p.2).map Prod.fst }

/-- TrafficModel.peak_factor: step function of the simulated minute. -/
def peakFactor (minute : Nat) : ℚ :=
  if 420 ≤ minute ∧ minute ≤ 570 then 22/10
  else if 1020 ≤ minute ∧ minute ≤ 1170 then 24/10
  else 1

/-- TrafficModel._zone_name: first zone containing the position, else FUERA. -/
def zoneNameAt (zones : List Zone) (p : Int × Int) : String :=
  match zones.find? (fun z => z.contains p) with
  | some z => z.name
  | none => "FUERA"

/-- Base spawn rate lookup by zone name in _try_spawn_cars (default 0.03). -/
def baseForZone (zones : List Zone) (zn : String) : ℚ :=
  match zones.find? (fun z => z.name = zn) with
  | some z => z.baseSpawn
  | none => 3/100

/-- Order-preserving removal of duplicates (the seen/out loop of
TrafficModel._spawn_points). -/
def orderDedup {α : Type} [DecidableEq α] (l : List α) : List α :=
  l.foldl (fun acc x => if x ∈ acc then acc else acc ++ [x]) []

/-- TrafficModel._spawn_points: one edge entry per lane end of each avenue. -/
def spawnPoints (w h : Nat) (ha va : List Int) : List ((Int × Int) × Dir) :=
  let pts :=
    (ha.flatMap fun yE => [((0, yE), Dir.E), (((w : Int) - 1, yE - 1), Dir.W)]) ++
    (va.flatMap fun xN => [((xN, 0), Dir.N), ((xN + 1, (h : Int) - 1), Dir.S)])
  orderDedup pts

/-- Body of the _try_spawn_cars loop for one entry point.  The state is
(cars so far, uid counter, RNG consumption counter). -/
def spawnOne (zones : List Zone) (minute : Nat) (scale : ℚ) (rand : Nat → ℚ)
    (st : List Car × Nat × Nat) (pt : (Int × Int) × Dir) : List Car × Nat × Nat :=
  let cars := st.1
  let uid := st.2.1
  let rc := st.2.2
  if cellHasCar cars pt.1 then (cars, uid, rc)
  else
    let zn := zoneNameAt zones pt.1
    let base := baseForZone zones zn
    let base := if zn = "INDUSTRIAL" ∧ 1020 ≤ minute ∧ minute ≤ 1200 then
        base * (14/10) else base
    let p := base * peakFactor minute * scale
    if rand rc < p then
      (cars ++ [{ uid := uid + 1, direction := pt.2, vmax := 1, accel := 3/10,
                  speed := 0, waitTime := 0, pos := pt.1 }], uid + 1, rc + 1)
    else (cars, uid, rc + 1)

/-- TrafficModel._try_spawn_cars. -/
def trySpawnCars (m : Model) : Model :=
  let out := (spawnPoints m.width m.height m.hAvenues m.vAvenues).foldl
    (spawnOne m.zones m.minuteOfDay m.baseSpawnScale m.rand)
    (m.cars, m.uid, m.rcount)
  { m with cars := out.1, uid := out.2.1, rcount := out.2.2 }

/-- Cluster key of a signal-bearing intersection cell: (xN, yE) with the
N lane at column xN and the E lane at row yE (TrafficModel._intersection_groups). -/
def groupKeyOf (va ha : List Int) (p : Int × Int) : Option (Int × Int) :=
  let xN? : Option Int :=
    if p.1 ∈ va then some p.1
    else if (p.1 - 1) ∈ va then some (p.1 - 1)
    else none
  let yE? : Option Int :=
    if p.2 ∈ ha then some p.2
    else if (p.2 + 1) ∈ ha then some (p.2 + 1)
    else none
  match xN?, yE? with
  | some a, some b => some (a, b)
  | _, _ => none

/-- groups.setdefault(key, []).append(i): append an index to the bucket of a
key, creating the bucket at the end on first use. -/
def addToGroups (k : Int × Int) (i : Nat) :
    List ((Int × Int) × List Nat) → List ((Int × Int) × List Nat)
  | [] => [(k, [i])]
  | (k', l) :: rest =>
    if k' = k then (k', l ++ [i]) :: rest else (k', l) :: addToGroups k i rest

/-- Scan of the agent list in TrafficModel._intersection_groups, recording
the index (schedule position among intersection agents) of each
signal-controlled cell under its cluster key. -/
def buildGroupsAux (va ha : List Int) : Nat → List ((Int × Int) × List Nat) →
    List InterCell → List ((Int × Int) × List Nat)
  | _, acc, [] => acc
  | i, acc, c :: rest =>
    let acc' :=
      if c.hasLight then
        match groupKeyOf va ha c.pos with
        | some k => addToGroups k i acc
        | none => acc
      else acc
    buildGroupsAux va ha (i + 1) acc' rest

/-- TrafficModel._intersection_groups over the intersection list. -/
def interGroups (va ha : List Int) (inters : List InterCell) :
    List ((Int × Int) × List Nat) :=
  buildGroupsAux va ha 0 [] inters

/-- TrafficModel._count_queue_for_group: horizontal and vertical demand
counted over the two approach lanes of each axis within detection range. -/
def countQueueForGroup (w h : Nat) (range : Nat) (cars : List Car)
    (k : Int × Int) : Nat × Nat :=
  let xN := k.1
  let yE := k.2
  let xS := xN + 1
  let yW := yE - 1
  let carsAt : (Int × Int) → Nat := fun p => (cars.filter fun c => c.pos = p).length
  let cnt : List (Int × Int) → Nat := fun cells =>
    (cells.filter fun p => !(gridOutOfBounds w h p)).foldl (fun a p => a + carsAt p) 0
  let idxs := (List.range range).map fun i => (i : Int) + 1
  let horiz := (idxs.map fun i => (xN - i, yE)) ++ (idxs.map fun i => (xS + i, yW))
  let vert := (idxs.map fun i => (xN, yE - i)) ++ (idxs.map fun i => (xS, yW + i))
  (cnt horiz, cnt vert)

/-- One-cluster update of _update_lights_fixed, applied to the reference
member: cycle refreshed from light_cycle, timer incremented, flip and reset
once the timer reaches the cycle. -/
def fixedGroupNext (lc : Nat) (r : InterCell) : InterCell :=
  let t1 := r.t + 1
  if t1 ≥ lc then { r with cycle := lc, t := 0, phase := 1 - r.phase }
  else { r with cycle := lc, t := t1 }

/-- One-cluster update of _update_lights_actuated: timer increments, then a
gap-out flip if min green is served, the green axis is empty and the red
axis has demand, then the fixed fallback once the timer reaches the cycle. -/
def actuatedGroupNext (lc minGreen : Nat) (qh qv : Nat) (r : InterCell) : InterCell :=
  let t1 := r.t + 1
  let cur := if r.phase = 0 then qh else qv
  let oth := if r.phase = 0 then qv else qh
  let s2 : Nat × Nat :=
    if t1 ≥ minGreen ∧ cur = 0 ∧ 0 < oth then (1 - r.phase, 0) else (r.phase, t1)
  if s2.2 ≥ lc then { r with cycle := lc, t := 0, phase := 1 - s2.1 }
  else { r with cycle := lc, t := s2.2, phase := s2.1 }

/-- Copy phase, timer and cycle from the reference cell onto a member. -/
def syncVals (v r : InterCell) : InterCell :=
  { r with phase := v.phase, t := v.t, cycle := v.cycle }

/-- Overwrite phase/timer/cycle at every listed index (the b.phase = ref.phase
synchronisation loop), scanning from index `i`. -/
def applySyncAux (mem : List Nat) (v : InterCell) : Nat → List InterCell → List InterCell
  | _, [] => []
  | i, r :: rest =>
    (if i ∈ mem then syncVals v r else r) :: applySyncAux mem v (i + 1) rest

/-- Synchronise all member indices of a cluster to the reference values. -/
def applySync (mem : List Nat) (v : InterCell) (l : List InterCell) : List InterCell :=
  applySyncAux mem v 0 l

/-- agents[0] of a cluster: the first recorded member. -/
def refInter (l : List InterCell) (mem : List Nat) : InterCell :=
  match mem with
  | [] => dummyInter
  | i :: _ => l.getD i dummyInter

/-- TrafficModel._update_lights_fixed. -/
def updateLightsFixed (m : Model) : Model :=
  let newInters := (interGroups m.vAvenues m.hAvenues m.inters).foldl
    (fun l g => applySync g.2 (fixedGroupNext m.lightCycle (refInter l g.2)) l)
    m.inters
  { m with inters := newInters }

/-- TrafficModel._update_lights_actuated. -/
def updateLightsActuated (m : Model) : Model :=
  let newInters := (interGroups m.vAvenues m.hAvenues m.inters).foldl
    (fun l g =>
      let q := countQueueForGroup m.width m.height m.detectionRange m.cars g.1
      applySync g.2
        (actuatedGroupNext m.lightCycle m.minGreenTime q.1 q.2 (refInter l g.2)) l)
    m.inters
  { m with inters := newInters }

/-- TrafficModel.step: spawn, update signals by the active mode, update every
car, drop removed cars, advance the minute of day modulo 1440.  (The data
collector only reads state.) -/
def Model.step (m : Model) : Model :=
  let m1 := trySpawnCars m
  let m2 := if m1.signalMode = "adaptive" then updateLightsActuated m1
            else updateLightsFixed m1
  let m3 := runCars m2
  { m3 with minuteOfDay := (m3.minuteOfDay + 1) % 1440 }

/-- TrafficModel.count_cars. -/
def countCars (m : Model) : Nat := m.cars.length

/-- TrafficModel.avg_wait (0 when no cars are live). -/
def avgWait (m : Model) : ℚ :=
  if m.cars.isEmpty then 0
  else (m.cars.map (fun c => (c.waitTime : ℚ))).sum / (m.cars.length : ℚ)

/-- TrafficModel.avg_speed (0 when no cars are live). -/
def avgSpeed (m : Model) : ℚ :=
  if m.cars.isEmpty then 0
  else (m.cars.map (fun c => c.speed)).sum / (m.cars.length : ℚ)

/-- The four zones installed by TrafficModel.__init__. -/
def defaultZones : List Zone :=
  [ { name := "CENTRO", x0 := 10, y0 := 10, x1 := 19, y1 := 19, baseSpawn := 12/100 },
    { name := "RESIDENCIAL", x0 := 0, y0 := 0, x1 := 9, y1 := 9, baseSpawn := 6/100 },
    { name := "INDUSTRIAL", x0 := 20, y0 := 0, x1 := 29, y1 := 9, baseSpawn := 7/100 },
    { name := "OTRA", x0 := 0, y0 := 20, x1 := 9, y1 := 29, baseSpawn := 4/100 } ]

/-- Ascending insertion used to model Python's sorted(...). -/
def sortedInsert (x : Int) : List Int → List Int
  | [] => [x]
  | y :: rest => if x ≤ y then x :: y :: rest else y :: sortedInsert x rest

/-- Insertion sort of an integer list. -/
def sortInts (l : List Int) : List Int := l.foldr sortedInsert []

/-- TrafficModel._define_avenues: central avenue plus two extras per axis,
deduplicated, clipped to valid range, sorted. -/
def defineAvenues (w h : Nat) : List Int × List Int :=
  let cx : Int := ((w / 2 : Nat) : Int)
  let cy : Int := ((h / 2 : Nat) : Int)
  let hs := [cy, 6, (h : Int) - 7].filter fun y => decide (1 ≤ y ∧ y < (h : Int))
  let vs := [cx, 6, (w : Int) - 7].filter fun x => decide (0 ≤ x ∧ x < (w : Int) - 1)
  (sortInts hs.dedup, sortInts vs.dedup)

/-- TrafficModel._add_horizontal_avenue: paired E/W lanes spanning the width,
interleaved in placement order, skipped when a lane row is out of range. -/
def hAvenueRoads (w h : Nat) (zones : List Zone) (yE : Int) :
    List ((Int × Int) × Dir × String) :=
  let yW := yE - 1
  if decide (0 ≤ yW ∧ yW < (h : Int) ∧ 0 ≤ yE ∧ yE < (h : Int)) then
    (List.range w).flatMap fun x =>
      [(((x : Int), yE), Dir.E, zoneNameAt zones ((x : Int), yE)),
       (((x : Int), yW), Dir.W, zoneNameAt zones ((x : Int), yW))]
  else []

/-- TrafficModel._add_vertical_avenue: paired N/S lanes spanning the height. -/
def vAvenueRoads (w h : Nat) (zones : List Zone) (xN : Int) :
    List ((Int × Int) × Dir × String) :=
  let xS := xN + 1
  if decide (0 ≤ xN ∧ xN < (w : Int) ∧ 0 ≤ xS ∧ xS < (w : Int)) then
    (List.range h).flatMap fun y =>
      [((xN, (y : Int)), Dir.N, zoneNameAt zones (xN, (y : Int))),
       ((xS, (y : Int)), Dir.S, zoneNameAt zones (xS, (y : Int)))]
  else []

/-- The 2x2 block of cells of one avenue crossing. -/
def crossCells (xN yE : Int) : List (Int × Int) :=
  [(xN, yE), (xN + 1, yE), (xN, yE - 1), (xN + 1, yE - 1)]

/-- Intersection placement loop of _build_roads_and_intersections: every
in-bounds crossing cell, flagged signal-controlled at the central crossing
and at the designated major crossing. -/
def interSpecs (w h : Nat) (ha va : List Int) : List ((Int × Int) × Bool) :=
  ha.flatMap fun yE => va.flatMap fun xN =>
    let isCentral := yE = ((h / 2 : Nat) : Int) ∧ xN = ((w / 2 : Nat) : Int)
    let isMajor := isCentral ∨ (yE = (h : Int) - 7 ∧ xN = (w : Int) - 7)
    ((crossCells xN yE).filter fun p =>
        decide (0 ≤ p.1 ∧ p.1 < (w : Int) ∧ 0 ≤ p.2 ∧ p.2 < (h : Int))).map
      fun p => (p, decide isMajor)

/-- Road cells receive sequential unique ids in placement order. -/
def mkRoadCells : Nat → List ((Int × Int) × Dir × String) → List RoadCell
  | _, [] => []
  | n, e :: rest =>
    { uid := n + 1, pos := e.1, direction := e.2.1, zoneName := e.2.2 } ::
      mkRoadCells (n + 1) rest

/-- Intersection cells receive sequential unique ids after the road cells,
with the constructor defaults: green pair (E, W), phase 0, timer 0,
cycle = light_cycle (12 at construction time). -/
def mkInterCells (off : Nat) : Nat → List ((Int × Int) × Bool) → List InterCell
  | _, [] => []
  | n, e :: rest =>
    { uid := off + n + 1, pos := e.1, hasLight := e.2,
      greenDirs := [Dir.E, Dir.W], phase := 0, t := 0, cycle := 12 } ::
      mkInterCells off (n + 1) rest

/-- TrafficModel.__init__ followed by _define_avenues and
_build_roads_and_intersections: zones, default configuration, lanes first,
then intersection clusters, unique ids in placement order, no cars yet. -/
def buildModel (w h : Nat) (scale : ℚ) (rand : Nat → ℚ) : Model :=
  let zs := defaultZones
  let av := defineAvenues w h
  let roadsRaw := (av.1.flatMap (hAvenueRoads w h zs)) ++ (av.2.flatMap (vAvenueRoads w h zs))
  let roads := mkRoadCells 0 roadsRaw
  let ispecs := interSpecs w h av.1 av.2
  let inters := mkInterCells roadsRaw.length 0 ispecs
  { width := w, height := h, secondsPerTick := 10, baseSpawnScale := scale,
    minuteOfDay := 420, uid := roadsRaw.length + ispecs.length, zones := zs,
    signalMode := "fixed", lightCycle := 12, minGreenTime := 6,
    maxGreenTime := 14, switchThreshold := 2, detectionRange := 8,
    hAvenues := av.1, vAvenues := av.2, roads := roads, inters := inters,
    cars := [], rand := rand, rcount := 0 }

/-- Snapshot payload of server.py build_snapshot: tick, grid size, car rows
(id, x, y, dir, speed) and signal rows (id, x, y, phase). -/
structure Snapshot where
  tick : Nat
  width : Nat
  height : Nat
  cars : List (Nat × Int × Int × Dir × ℚ)
  lights : List (Nat × Int × Int × Nat)
deriving DecidableEq, Repr

/-- server.py build_snapshot. -/
def buildSnapshot (m : Model) (tick : Nat) : Snapshot :=
  { tick := tick, width := m.width, height := m.height,
    cars := m.cars.map fun c => (c.uid, c.pos.1, c.pos.2, c.direction, c.speed),
    lights := (m.inters.filter fun i => i.hasLight).map
      fun i => (i.uid, i.pos.1, i.pos.2, i.phase) }

/-- The two response bodies UnityHandler.do_POST can produce: the
Invalid JSON error object or a snapshot object. -/
inductive PostResponse
  | invalidJson
  | snapshotResp (s : Snapshot)
deriving DecidableEq, Repr

/-- UnityHandler.do_POST: the request path is never inspected; a body that
fails JSON parsing yields 400, otherwise the model advances one tick and the
new snapshot is returned.  Result: ((status, body), world, tick counter). -/
def doPOST (path : String) (bodyValid : Bool) (m : Model) (tick : Nat) :
    (Nat × PostResponse) × Model × Nat :=
  if !bodyValid then ((400, PostResponse.invalidJson), m, tick)
  else ((200, PostResponse.snapshotResp (buildSnapshot m.step (tick + 1))),
        m.step, tick + 1)

/-- The live-car invariant of the spec: position inside the grid and speed
within [0, vmax]. -/
def carOK (w h : Nat) (c : Car) : Prop :=
  0 ≤ c.pos.1 ∧ c.pos.1 < (w : Int) ∧ 0 ≤ c.pos.2 ∧ c.pos.2 < (h : Int) ∧
  0 ≤ c.speed ∧ c.speed ≤ c.vmax

instance (w h : Nat) (c : Car) : Decidable (carOK w h c) := by
  unfold carOK; infer_instance

/-- All member indices of all clusters, concatenated. -/
def groupsFlat (gs : List ((Int × Int) × List Nat)) : List Nat :=
  gs.foldr (fun g acc => g.2 ++ acc) []

/-- The static signature of an intersection list: position and signal flag of
each cell, in order (the data _intersection_groups reads). -/
def interSig (l : List InterCell) : List ((Int × Int) × Bool) :=
  l.map fun c => (c.pos, c.hasLight)

/-! Concrete worlds used by witnesses and counterexamples. -/

/-- A 12-cell one-directional E lane across a 12 x 1 grid. -/
def laneRoads : List RoadCell :=
  (List.range 12).map fun x =>
    { uid := x + 1, pos := ((x : Int), 0), direction := Dir.E, zoneName := "FUERA" }

/-- A world with a single car (vmax 1, accel 0.3, speed 0) at the west end of
an obstruction-free one-directional lane; no spawn points, no signals. -/
def mLane : Model :=
  { width := 12, height := 1, secondsPerTick := 10, baseSpawnScale := 1,
    minuteOfDay := 420, uid := 100, zones := [], signalMode := "fixed",
    lightCycle := 12, minGreenTime := 6, maxGreenTime := 14, switchThreshold := 2,
    detectionRange := 8, hAvenues := [], vAvenues := [], roads := laneRoads,
    inters := [],
    cars := [{ uid := 50, direction := Dir.E, vmax := 1, accel := 3/10,
               speed := 0, waitTime := 0, pos := (0, 0) }],
    rand := fun _ => 1/2, rcount := 0 }

/-- Car approaching a green signal-controlled intersection at (2,0) whose
follow-on cell (3,0) is occupied by a stopped car. -/
def mGrid : Model :=
  { width := 5, height := 1, secondsPerTick := 10, baseSpawnScale := 1,
    minuteOfDay := 420, uid := 100, zones := [], signalMode := "fixed",
    lightCycle := 12, minGreenTime := 6, maxGreenTime := 14, switchThreshold := 2,
    detectionRange := 8, hAvenues := [], vAvenues := [],
    roads := (List.range 5).map fun x =>
      { uid := x + 1, pos := ((x : Int), 0), direction := Dir.E, zoneName := "FUERA" },
    inters := [{ uid := 20, pos := (2, 0), hasLight := true,
                 greenDirs := [Dir.E, Dir.W], phase := 0, t := 0, cycle := 12 }],
    cars := [{ uid := 1, direction := Dir.E, vmax := 1, accel := 3/10,
               speed := 9/10, waitTime := 0, pos := (1, 0) },
             { uid := 2, direction := Dir.E, vmax := 1, accel := 3/10,
               speed := 0, waitTime := 0, pos := (3, 0) }],
    rand := fun _ => 1/2, rcount := 0 }

/-- Car approaching a green intersection at the grid edge: the follow-on cell
(4,0) is out of bounds, so the anti-gridlock check is skipped. -/
def mGridEdge : Model :=
  { width := 4, height := 1, secondsPerTick := 10, baseSpawnScale := 1,
    minuteOfDay := 420, uid := 100, zones := [], signalMode := "fixed",
    lightCycle := 12, minGreenTime := 6, maxGreenTime := 14, switchThreshold := 2,
    detectionRange := 8, hAvenues := [], vAvenues := [],
    roads := (List.range 4).map fun x =>
      { uid := x + 1, pos := ((x : Int), 0), direction := Dir.E, zoneName := "FUERA" },
    inters := [{ uid := 20, pos := (3, 0), hasLight := true,
                 greenDirs := [Dir.E, Dir.W], phase := 0, t := 0, cycle := 12 }],
    cars := [{ uid := 1, direction := Dir.E, vmax := 1, accel := 3/10,
               speed := 9/10, waitTime := 0, pos := (2, 0) }],
    rand := fun _ => 1/2, rcount := 0 }

/-- Eastbound car one cell west of the uncontrolled intersection (1,0). -/
def carA : Car :=
  { uid := 1, direction := Dir.E, vmax := 1, accel := 3/10, speed := 9/10,
    waitTime := 0, pos := (0, 0) }

/-- Southbound car one cell north of the same intersection (1,0). -/
def carB : Car :=
  { uid := 2, direction := Dir.S, vmax := 1, accel := 3/10, speed := 9/10,
    waitTime := 0, pos := (1, 1) }

/-- Two cars contending for the uncontrolled intersection cell (1,0); the car
list order and the random stream are parameters. -/
def mRace (cs : List Car) (f : Nat → ℚ) : Model :=
  { width := 3, height := 2, secondsPerTick := 10, baseSpawnScale := 1,
    minuteOfDay := 420, uid := 100, zones := [], signalMode := "fixed",
    lightCycle := 12, minGreenTime := 6, maxGreenTime := 14, switchThreshold := 2,
    detectionRange := 8, hAvenues := [], vAvenues := [],
    roads := [{ uid := 10, pos := (0, 0), direction := Dir.E, zoneName := "FUERA" },
              { uid := 11, pos := (2, 0), direction := Dir.E, zoneName := "FUERA" },
              { uid := 12, pos := (1, 1), direction := Dir.S, zoneName := "FUERA" }],
    inters := [{ uid := 20, pos := (1, 0), hasLight := false,
                 greenDirs := [Dir.E, Dir.W], phase := 0, t := 0, cycle := 12 }],
    cars := cs, rand := f, rcount := 0 }

/-- Adaptive-mode world: one signal-controlled 2x2 cluster with key (1,1),
one southbound car inside the vertical detection window, none on the
horizontal approaches. -/
def mSig : Model :=
  { width := 6, height := 6, secondsPerTick := 10, baseSpawnScale := 1,
    minuteOfDay := 420, uid := 100, zones := [], signalMode := "adaptive",
    lightCycle := 12, minGreenTime := 2, maxGreenTime := 14, switchThreshold := 2,
    detectionRange := 3, hAvenues := [1], vAvenues := [1],
    roads := [],
    inters := [{ uid := 20, pos := (1, 1), hasLight := true,
                 greenDirs := [Dir.E, Dir.W], phase := 0, t := 5, cycle := 12 },
               { uid := 21, pos := (2, 1), hasLight := true,
                 greenDirs := [Dir.E, Dir.W], phase := 0, t := 5, cycle := 12 },
               { uid := 22, pos := (1, 0), hasLight := true,
                 greenDirs := [Dir.E, Dir.W], phase := 0, t := 5, cycle := 12 },
               { uid := 23, pos := (2, 0), hasLight := true,
                 greenDirs := [Dir.E, Dir.W], phase := 0, t := 5, cycle := 12 }],
    cars := [{ uid := 1, direction := Dir.S, vmax := 1, accel := 3/10,
               speed := 0, waitTime := 0, pos := (2, 2) }],
    rand := fun _ => 1/2, rcount := 0 }

/-- The reference member of the mSig cluster. -/
def rW : InterCell :=
  { uid := 20, pos := (1, 1), hasLight := true, greenDirs := [Dir.E, Dir.W],
    phase := 0, t := 5, cycle := 12 }

/-- An empty world: no roads, no cars, no avenues. -/
def mEmpty : Model :=
  { width := 6, height := 6, secondsPerTick := 10, baseSpawnScale := 1,
    minuteOfDay := 420, uid := 0, zones := [], signalMode := "fixed",
    lightCycle := 12, minGreenTime := 6, maxGreenTime := 14, switchThreshold := 2,
    detectionRange := 8, hAvenues := [], vAvenues := [], roads := [],
    inters := [], cars := [], rand := fun _ => 1/2, rcount := 0 }

/-- The same world with different values of the two configuration fields the
simulation never reads. -/
def setUnused (m : Model) (a b : Nat) : Model :=
  { m with maxGreenTime := a, switchThreshold := b }

/-- The same world with a different random stream. -/
def setRand (m : Model) (f : Nat → ℚ) : Model :=
  { m with rand := f }

/-- The approaching car of the mGrid scenario. -/
def cW1 : Car :=
  { uid := 1, direction := Dir.E, vmax := 1, accel := 3/10, speed := 9/10,
    waitTime := 0, pos := (1, 0) }

/-- The signal cell of the mGrid scenario. -/
def iW1 : InterCell :=
  { uid := 20, pos := (2, 0), hasLight := true, greenDirs := [Dir.E, Dir.W],
    phase := 0, t := 0, cycle := 12 }

/-- The approaching car of the mGridEdge scenario. -/
def cW2 : Car :=
  { uid := 1, direction := Dir.E, vmax := 1, accel := 3/10, speed := 9/10,
    waitTime := 0, pos := (2, 0) }

/-- The signal cell of the mGridEdge scenario. -/
def iW2 : InterCell :=
  { uid := 20, pos := (3, 0), hasLight := true, greenDirs := [Dir.E, Dir.W],
    phase := 0, t := 0, cycle := 12 }

/-! ### Theorems -/

attribute [local semireducible] Rat.add Rat.mul Rat.inv Rat.sub

/-- C2: a single car with vmax 1 and accel 0.3 on an obstruction-free
one-directional lane has post-acceleration speeds 0.3, 0.6, 0.9, then 1.0
onward; it only moves on ticks where speed exceeds 0.5, so it stands still
on tick 1 (incrementing its wait counter) and advances exactly one cell per
tick from tick 2 on, covering exactly 9 cells in 10 ticks. -/
theorem c2_transit_timing :
    ((List.range 10).map fun k =>
      ((Model.step)^[k + 1] mLane).cars.map fun c => (c.pos, c.speed, c.waitTime)) =
    [[((0, 0), 3/10, 1)], [((1, 0), 3/5, 1)], [((2, 0), 9/10, 1)], [((3, 0), 1, 1)],
     [((4, 0), 1, 1)], [((5, 0), 1, 1)], [((6, 0), 1, 1)], [((7, 0), 1, 1)],
     [((8, 0), 1, 1)], [((9, 0), 1, 1)]] := by decide

/-- C9 (amended): the POST handler ignores the request path entirely; any
POST with a valid JSON body — including one to /config — advances the
simulation exactly one tick and returns the plain snapshot with the
incremented tick counter.  No configuration merge happens anywhere. -/
theorem c9_post_behavior (path : String) (m : Model) (tick : Nat) :
    doPOST path true m tick =
      ((200, PostResponse.snapshotResp (buildSnapshot (Model.step m) (tick + 1))),
        Model.step m, tick + 1) := rfl

/-- C9 (counterexample): a POST to /config with a valid JSON body advances
the tick counter from 0 to 1 and the world clock from minute 420 to 421, and
the response is a plain snapshot object, not an {ok, config, snapshot}
object — contradicting the claim that /config merges configuration without
advancing the simulation. -/
theorem c9_config_counterexample :
    (doPOST "/config" true mEmpty 0).2.2 = 1 ∧
    ((doPOST "/config" true mEmpty 0).2.1).minuteOfDay = 421 ∧
    (doPOST "/config" true mEmpty 0).1 =
      (200, PostResponse.snapshotResp (buildSnapshot (Model.step mEmpty) 1)) :=
  ⟨rfl, rfl, rfl⟩

/-- C10: max_green_time and switch_threshold are dead configuration: a tick
of a world with those two fields replaced by arbitrary values produces the
same world (up to those fields), hence identical cars (positions, speeds,
waits), identical signal cells (phases, timers, cycles) and identical
metrics. -/
theorem c10_unused_config_fields (m : Model) (a b : Nat) :
    Model.step (setUnused m a b) = setUnused (Model.step m) a b ∧
    (Model.step (setUnused m a b)).cars = (Model.step m).cars ∧
    (Model.step (setUnused m a b)).inters = (Model.step m).inters ∧
    avgWait (Model.step (setUnused m a b)) = avgWait (Model.step m) ∧
    avgSpeed (Model.step (setUnused m a b)) = avgSpeed (Model.step m) ∧
    countCars (Model.step (setUnused m a b)) = countCars (Model.step m) := by
  have h1 : trySpawnCars (setUnused m a b) = setUnused (trySpawnCars m) a b := rfl
  have hsm : ∀ x : Model, (setUnused x a b).signalMode = x.signalMode := fun _ => rfl
  have h2a : ∀ x : Model,
      updateLightsActuated (setUnused x a b) = setUnused (updateLightsActuated x) a b :=
    fun _ => rfl
  have h2f : ∀ x : Model,
      updateLightsFixed (setUnused x a b) = setUnused (updateLightsFixed x) a b :=
    fun _ => rfl
  have hcs : ∀ (x : Model) (occ : List Car) (c : Car),
      carStep (setUnused x a b) occ c = carStep x occ c := fun _ _ _ => rfl
  have haux : ∀ (x : Model) (rest : List Car) (done : List (Car × Bool)),
      stepCarsAux (setUnused x a b) done rest = stepCarsAux x done rest := by
    intro x rest
    induction rest with
    | nil => intro done; rfl
    | cons c cs ih => intro done; simp only [stepCarsAux, hcs, ih]
  have h3 : ∀ x : Model, runCars (setUnused x a b) = setUnused (runCars x) a b := by
    intro x
    unfold runCars
    rw [haux]
    rfl
  have hstep : Model.step (setUnused m a b) = setUnused (Model.step m) a b := by
    simp only [Model.step]
    rw [h1, hsm]
    by_cases hm : (trySpawnCars m).signalMode = "adaptive"
    · rw [if_pos hm, if_pos hm, h2a, h3]; rfl
    · rw [if_neg hm, if_neg hm, h2f, h3]; rfl
  refine ⟨hstep, ?_, ?_, ?_, ?_, ?_⟩ <;> rw [hstep] <;> rfl

/-- An intersection cell short-circuits the lane-direction check:
_road_direction_ok is true for any direction wherever _get_intersection
finds an intersection. -/
theorem roadOk_of_getInter {roads : List RoadCell} {inters : List InterCell}
    {p : Int × Int} {i : InterCell} (d : Dir)
    (h : getIntersection inters p = some i) :
    roadDirectionOk roads inters p d = true := by
  unfold getIntersection at h
  have hm := List.mem_of_find?_eq_some h
  have hp := List.find?_some h
  unfold roadDirectionOk
  rw [if_pos (List.any_eq_true.mpr ⟨i, hm, hp⟩)]

/-- Timer component of one fixed-cycle cluster update. -/
theorem fixedGroupNext_t (lc : Nat) (r : InterCell) :
    (fixedGroupNext lc r).t = if r.t + 1 ≥ lc then 0 else r.t + 1 := by
  simp only [fixedGroupNext]
  split_ifs <;> rfl

/-- Phase component of one fixed-cycle cluster update. -/
theorem fixedGroupNext_phase (lc : Nat) (r : InterCell) :
    (fixedGroupNext lc r).phase = if r.t + 1 ≥ lc then 1 - r.phase else r.phase := by
  simp only [fixedGroupNext]
  split_ifs <;> rfl

/-- C4: under the fixed-cycle policy with light_cycle 12, a cluster state
starting at timer 0 has, after n ticks, timer n mod 12 and phase flipped
once every 12 ticks (phase at tick n is the start phase exactly when
n / 12 is even); moreover the fixed-cycle update is independent of the car
population, hence of traffic. -/
theorem c4_fixed_cycle_period (n : Nat) (r : InterCell) (h0 : r.t = 0)
    (h1 : r.phase ≤ 1) :
    (((fixedGroupNext 12)^[n] r).t = n % 12 ∧
     ((fixedGroupNext 12)^[n] r).phase =
       if (n / 12) % 2 = 0 then r.phase else 1 - r.phase) ∧
    ∀ (m : Model) (cs : List Car),
      (updateLightsFixed { m with cars := cs }).inters = (updateLightsFixed m).inters := by
  constructor
  · induction n with
    | zero => simp [h0]
    | succ k ih =>
      obtain ⟨iht, ihp⟩ := ih
      rw [Function.iterate_succ_apply']
      constructor
      · rw [fixedGroupNext_t, iht]
        split_ifs <;> omega
      · rw [fixedGroupNext_phase, iht, ihp]
        split_ifs <;> omega
  · intro m cs
    rfl

/-- C4 witness: after 24 fixed-cycle ticks from a phase-0 timer-0 cell the
timer is back to 0 and the phase has flipped exactly twice. -/
theorem c4_fixed_cycle_period_witness :
    ((((fixedGroupNext 12)^[24] dummyInter).t = 24 % 12 ∧
      ((fixedGroupNext 12)^[24] dummyInter).phase =
        if (24 / 12) % 2 = 0 then dummyInter.phase else 1 - dummyInter.phase) ∧
     ∀ (m : Model) (cs : List Car),
       (updateLightsFixed { m with cars := cs }).inters =
         (updateLightsFixed m).inters) :=
  c4_fixed_cycle_period 24 dummyInter rfl (by decide)

/-- C3: in the actuated policy, with queues (qh, qv) as counted by
_count_queue_for_group, once the incremented timer has served min green and
the green axis counts zero cars while the red axis counts at least one, the
cluster flips phase and resets its timer on that very update; and when no
gap-out fires and the incremented timer has reached the cycle length, the
fallback flips and resets regardless of demand. -/
theorem c3_gap_out (m : Model) (k : Int × Int) (r : InterCell) (qh qv : Nat)
    (hq : (qh, qv) = countQueueForGroup m.width m.height m.detectionRange m.cars k)
    (hcy : 0 < m.lightCycle) :
    ((r.t + 1 ≥ m.minGreenTime ∧ (if r.phase = 0 then qh else qv) = 0 ∧
        0 < (if r.phase = 0 then qv else qh)) →
      (actuatedGroupNext m.lightCycle m.minGreenTime qh qv r).phase = 1 - r.phase ∧
      (actuatedGroupNext m.lightCycle m.minGreenTime qh qv r).t = 0) ∧
    (¬ (r.t + 1 ≥ m.minGreenTime ∧ (if r.phase = 0 then qh else qv) = 0 ∧
        0 < (if r.phase = 0 then qv else qh)) →
      r.t + 1 ≥ m.lightCycle →
      (actuatedGroupNext m.lightCycle m.minGreenTime qh qv r).phase = 1 - r.phase ∧
      (actuatedGroupNext m.lightCycle m.minGreenTime qh qv r).t = 0) := by
  constructor
  · intro hgap
    simp only [actuatedGroupNext, if_pos hgap]
    rw [if_neg (by omega)]
    exact ⟨rfl, rfl⟩
  · intro hng hfull
    simp only [actuatedGroupNext, if_neg hng]
    rw [if_pos hfull]
    exact ⟨rfl, rfl⟩

/-- C3 witness: in the mSig world (adaptive, min green 2, detection range 3,
horizontal queue 0, vertical queue 1) the cluster at timer 5 gap-flips to
phase 1 with timer 0 on this very tick. -/
theorem c3_gap_out_witness :
    (actuatedGroupNext mSig.lightCycle mSig.minGreenTime 0 1 rW).phase = 1 - rW.phase ∧
    (actuatedGroupNext mSig.lightCycle mSig.minGreenTime 0 1 rW).t = 0 :=
  (c3_gap_out mSig (1, 1) rW 0 1 (by decide) (by decide)).1 (by decide)

/-- C1: when a car's next cell is an intersection that holds no car: if the
follow-on cell is inside the grid and is either incompatible or occupied,
the step leaves the position unchanged, zeroes the speed and increments the
wait counter (whatever the signal shows); if the follow-on cell is outside
the grid the anti-gridlock check is skipped and, on a green signal with
enough speed, the car enters the intersection. -/
theorem c1_anti_gridlock (m : Model) (occ : List Car) (c : Car) (i : InterCell)
    (hint : getIntersection m.inters (nextPos c.direction c.pos) = some i)
    (hnb : gridOutOfBounds m.width m.height (nextPos c.direction c.pos) = false)
    (hnc : cellHasCar occ (nextPos c.direction c.pos) = false) :
    (gridOutOfBounds m.width m.height
        (nextPos c.direction (nextPos c.direction c.pos)) = false →
      (roadDirectionOk m.roads m.inters
          (nextPos c.direction (nextPos c.direction c.pos)) c.direction = false ∨
        cellHasCar occ (nextPos c.direction (nextPos c.direction c.pos)) = true) →
      carStep m occ c = ({ c with speed := 0, waitTime := c.waitTime + 1 }, false)) ∧
    (gridOutOfBounds m.width m.height
        (nextPos c.direction (nextPos c.direction c.pos)) = true →
      i.isGreenFor c.direction = true →
      clamp (c.speed + c.accel) 0 c.vmax > 1/2 →
      carStep m occ c =
        ({ c with speed := clamp (c.speed + c.accel) 0 c.vmax,
                  pos := nextPos c.direction c.pos }, false)) := by
  have hrok := @roadOk_of_getInter m.roads m.inters _ _ c.direction hint
  constructor
  · intro hob hblk
    simp only [carStep, hnb, hrok, hnc, hint, Bool.false_eq_true, if_false,
      Bool.not_true, Bool.false_and, Bool.and_false, Bool.not_false, if_true]
    cases hred : (i.hasLight && !(i.isGreenFor c.direction))
    · simp only [Bool.false_eq_true, if_false]
      rcases hblk with hb | hb <;>
        simp [hob, hb]
    · simp only [if_true]
  · intro hob hgreen hsp
    simp only [carStep, hnb, hrok, hnc, hint, hgreen, hob, Bool.false_eq_true,
      if_false, Bool.not_true, Bool.and_false, Bool.false_and, if_true,
      Bool.not_false]
    rw [if_pos hsp]

/-- C1 witness: in mGrid the car facing a green light at (2,0) whose exit
cell (3,0) is occupied stops with speed 0 and wait 1; in mGridEdge the exit
cell is off-grid and the car enters the intersection. -/
theorem c1_anti_gridlock_witness :
    carStep mGrid mGrid.cars cW1 =
      ({ cW1 with speed := 0, waitTime := cW1.waitTime + 1 }, false) ∧
    carStep mGridEdge mGridEdge.cars cW2 =
      ({ cW2 with speed := clamp (cW2.speed + cW2.accel) 0 cW2.vmax,
                  pos := nextPos cW2.direction cW2.pos }, false) :=
  ⟨(c1_anti_gridlock mGrid mGrid.cars cW1 iW1 rfl rfl rfl).1 rfl
      (Or.inr rfl),
   (c1_anti_gridlock mGridEdge mGridEdge.cars cW2 iW2 rfl rfl rfl).2 rfl rfl
      (by decide)⟩

/-- C6 (counterexample): the car-update order of a tick is the car list
(schedule insertion) order and ignores the random stream: with the same two
contending cars, car A wins the intersection cell whenever it is first in
the list — under two different random streams — and car B wins when the
list order is swapped.  So the order is not re-shuffled from the world's
random stream. -/
theorem c6_fixed_order_counterexample :
    ((mRace [carA, carB] (fun _ => 0)).step).cars =
      [{ carA with speed := 1, pos := (1, 0) }, { carB with speed := 0, waitTime := 1 }] ∧
    ((mRace [carA, carB] (fun _ => 9/10)).step).cars =
      [{ carA with speed := 1, pos := (1, 0) }, { carB with speed := 0, waitTime := 1 }] ∧
    ((mRace [carB, carA] (fun _ => 0)).step).cars =
      [{ carB with speed := 1, pos := (1, 0) }, { carA with speed := 0, waitTime := 1 }] := by
  decide

/-- C6 (amended): in the absence of spawn points the whole tick's car
outcome is invariant under replacing the world's random stream — the car
pass consumes no randomness and visits cars in list order. -/
theorem c6_order_rand_independent (m : Model) (f : Nat → ℚ)
    (hsp : spawnPoints m.width m.height m.hAvenues m.vAvenues = []) :
    (Model.step (setRand m f)).cars = (Model.step m).cars := by
  have hsp' : spawnPoints (setRand m f).width (setRand m f).height
      (setRand m f).hAvenues (setRand m f).vAvenues = [] := hsp
  have h1 : trySpawnCars (setRand m f) = setRand m f := by
    unfold trySpawnCars
    rw [hsp']
    rfl
  have h2 : trySpawnCars m = m := by
    unfold trySpawnCars
    rw [hsp]
    rfl
  have hla : ∀ x : Model,
      updateLightsActuated (setRand x f) = setRand (updateLightsActuated x) f :=
    fun _ => rfl
  have hlf : ∀ x : Model,
      updateLightsFixed (setRand x f) = setRand (updateLightsFixed x) f :=
    fun _ => rfl
  have hcs : ∀ (x : Model) (occ : List Car) (c : Car),
      carStep (setRand x f) occ c = carStep x occ c := fun _ _ _ => rfl
  have haux : ∀ (x : Model) (rest : List Car) (done : List (Car × Bool)),
      stepCarsAux (setRand x f) done rest = stepCarsAux x done rest := by
    intro x rest
    induction rest with
    | nil => intro done; rfl
    | cons c cs ih => intro done; simp only [stepCarsAux, hcs, ih]
  have hrun : ∀ x : Model, runCars (setRand x f) = setRand (runCars x) f := by
    intro x
    unfold runCars
    rw [haux]
    rfl
  have hsm : (setRand m f).signalMode = m.signalMode := rfl
  simp only [Model.step]
  rw [h1, h2, hsm]
  by_cases hm : m.signalMode = "adaptive"
  · rw [if_pos hm, if_pos hm, hla, hrun]; rfl
  · rw [if_neg hm, if_neg hm, hlf, hrun]; rfl

/-- C6 witness for the amended statement: the race world has no spawn
points, and its tick outcome is unchanged by a different random stream. -/
theorem c6_order_rand_independent_witness :
    (Model.step (setRand (mRace [carA, carB] (fun _ => 0)) (fun _ => 9/10))).cars =
      (Model.step (mRace [carA, carB] (fun _ => 0))).cars :=
  c6_order_rand_independent (mRace [carA, carB] (fun _ => 0)) (fun _ => 9/10) rfl

/-- clamp stays within its (ordered) bounds. -/
theorem clamp_bounds {lo hi : ℚ} (v : ℚ) (h : lo ≤ hi) :
    lo ≤ clamp v lo hi ∧ clamp v lo hi ≤ hi :=
  ⟨le_max_left _ _, max_le h (min_le_left _ _)⟩

/-- A position that is not out of bounds lies inside the grid rectangle. -/
theorem not_oob {w h : Nat} {p : Int × Int} (hp : ¬ gridOutOfBounds w h p = true) :
    0 ≤ p.1 ∧ p.1 < (w : Int) ∧ 0 ≤ p.2 ∧ p.2 < (h : Int) := by
  simp only [gridOutOfBounds, decide_eq_true_eq] at hp
  push_neg at hp
  omega

/-- One car step preserves the car invariant: the position only changes to a
cell checked in-bounds, and the speed is either clamped into [0, vmax] or
set to 0. -/
theorem carStep_ok (m : Model) (occ : List Car) (c : Car)
    (h : carOK m.width m.height c) :
    carOK m.width m.height (carStep m occ c).1 := by
  obtain ⟨h1, h2, h3, h4, h5, h6⟩ := h
  have hv : (0 : ℚ) ≤ c.vmax := le_trans h5 h6
  have hcl := clamp_bounds (c.speed + c.accel) hv
  simp only [carStep]
  split
  · exact ⟨h1, h2, h3, h4, hcl.1, hcl.2⟩
  next hob =>
    have hnx := not_oob hob
    split
    · exact ⟨h1, h2, h3, h4, hcl.1, hcl.2⟩
    split
    · exact ⟨h1, h2, h3, h4, le_refl 0, hv⟩
    split
    next i heq =>
      split
      · exact ⟨h1, h2, h3, h4, le_refl 0, hv⟩
      split
      · exact ⟨h1, h2, h3, h4, le_refl 0, hv⟩
      split
      · exact ⟨hnx.1, hnx.2.1, hnx.2.2.1, hnx.2.2.2, hcl.1, hcl.2⟩
      · exact ⟨h1, h2, h3, h4, hcl.1, hcl.2⟩
    next heq =>
      split
      · exact ⟨hnx.1, hnx.2.1, hnx.2.2.1, hnx.2.2.2, hcl.1, hcl.2⟩
      · exact ⟨h1, h2, h3, h4, hcl.1, hcl.2⟩

/-- The whole car pass preserves the car invariant. -/
theorem stepCarsAux_ok (m : Model) :
    ∀ (rest : List Car) (done : List (Car × Bool)),
    (∀ p ∈ done, carOK m.width m.height p.1) →
    (∀ c ∈ rest, carOK m.width m.height c) →
    ∀ p ∈ stepCarsAux m done rest, carOK m.width m.height p.1 := by
  intro rest
  induction rest with
  | nil => intro done hd _ p hp; exact hd p hp
  | cons c cs ih =>
    intro done hd hr p hp
    simp only [stepCarsAux] at hp
    refine ih (done ++ [carStep m ((done.map Prod.fst) ++ (c :: cs)) c]) ?_ ?_ p hp
    · intro q hq
      rcases List.mem_append.mp hq with hq | hq
      · exact hd q hq
      · rcases List.mem_singleton.mp hq with rfl
        exact carStep_ok m _ c (hr c (List.mem_cons_self c cs))
    · intro d hdm
      exact hr d (List.mem_cons_of_mem c hdm)

/-- The seen/out dedup loop only returns elements of its inputs. -/
theorem orderDedup_subset {α : Type} [DecidableEq α] {x : α} :
    ∀ (l acc : List α),
    x ∈ l.foldl (fun acc y => if y ∈ acc then acc else acc ++ [y]) acc →
    x ∈ acc ∨ x ∈ l := by
  intro l
  induction l with
  | nil => intro acc hx; exact Or.inl hx
  | cons y ys ih =>
    intro acc hx
    simp only [List.foldl_cons] at hx
    rcases ih _ hx with hx | hx
    · by_cases hy : y ∈ acc
      · rw [if_pos hy] at hx
        exact Or.inl hx
      · rw [if_neg hy] at hx
        rcases List.mem_append.mp hx with hx | hx
        · exact Or.inl hx
        · rcases List.mem_singleton.mp hx with rfl
          exact Or.inr (List.mem_cons_self x ys)
    · exact Or.inr (List.mem_cons_of_mem y hx)

/-- Every spawn point of clipped avenue lists lies inside the grid. -/
theorem spawnPoints_inBounds {w h : Nat} {ha va : List Int}
    (hw : 0 < w) (hh : 0 < h)
    (hha : ∀ y ∈ ha, 1 ≤ y ∧ y < (h : Int))
    (hva : ∀ x ∈ va, 0 ≤ x ∧ x < (w : Int) - 1) :
    ∀ pt ∈ spawnPoints w h ha va,
      0 ≤ pt.1.1 ∧ pt.1.1 < (w : Int) ∧ 0 ≤ pt.1.2 ∧ pt.1.2 < (h : Int) := by
  intro pt hpt
  rcases orderDedup_subset _ _ hpt with hx | hx
  · cases hx
  rcases List.mem_append.mp hx with hx | hx
  · rcases List.mem_flatMap.mp hx with ⟨yE, hyE, hmem⟩
    have := hha yE hyE
    simp only [List.mem_cons, List.not_mem_nil, or_false] at hmem
    rcases hmem with rfl | rfl <;> dsimp only <;> omega
  · rcases List.mem_flatMap.mp hx with ⟨xN, hxN, hmem⟩
    have := hva xN hxN
    simp only [List.mem_cons, List.not_mem_nil, or_false] at hmem
    rcases hmem with rfl | rfl <;> dsimp only <;> omega

/-- One spawn attempt only adds cars satisfying the invariant (fresh cars
appear at the in-bounds entry cell with speed 0 and vmax 1). -/
theorem spawnOne_ok {w h : Nat} (zs : List Zone) (minute : Nat) (scale : ℚ)
    (rand : Nat → ℚ) (st : List Car × Nat × Nat) (pt : (Int × Int) × Dir)
    (hst : ∀ c ∈ st.1, carOK w h c)
    (hpt : 0 ≤ pt.1.1 ∧ pt.1.1 < (w : Int) ∧ 0 ≤ pt.1.2 ∧ pt.1.2 < (h : Int)) :
    ∀ c ∈ (spawnOne zs minute scale rand st pt).1, carOK w h c := by
  intro c hc
  simp only [spawnOne] at hc
  split at hc
  · exact hst c hc
  · split at hc <;>
    [skip; skip] <;>
    · split at hc
      · rcases List.mem_append.mp hc with hc | hc
        · exact hst c hc
        · rcases List.mem_singleton.mp hc with rfl
          exact ⟨hpt.1, hpt.2.1, hpt.2.2.1, hpt.2.2.2, le_refl 0, by norm_num⟩
      · exact hst c hc

/-- The whole spawn loop preserves the car invariant. -/
theorem spawnFold_ok {w h : Nat} (zs : List Zone) (minute : Nat) (scale : ℚ)
    (rand : Nat → ℚ) :
    ∀ (pts : List ((Int × Int) × Dir)) (st : List Car × Nat × Nat),
    (∀ c ∈ st.1, carOK w h c) →
    (∀ pt ∈ pts, 0 ≤ pt.1.1 ∧ pt.1.1 < (w : Int) ∧ 0 ≤ pt.1.2 ∧ pt.1.2 < (h : Int)) →
    ∀ c ∈ (pts.foldl (spawnOne zs minute scale rand) st).1, carOK w h c := by
  intro pts
  induction pts with
  | nil => intro st hst _ c hc; exact hst c hc
  | cons pt pts ih =>
    intro st hst hpts c hc
    simp only [List.foldl_cons] at hc
    refine ih _ ?_ (fun q hq => hpts q (List.mem_cons_of_mem pt hq)) c hc
    exact spawnOne_ok zs minute scale rand st pt hst
      (hpts pt (List.mem_cons_self pt pts))

/-- C7: a full tick preserves the live-car invariant — every car still on
the grid after the tick's removals has a position inside
[0, width) x [0, height) and a speed in [0, vmax] — provided the initial
cars satisfy it and the avenue lists respect the builder's clipping ranges. -/
theorem c7_bounds_invariant (m : Model) (hw : 0 < m.width) (hh : 0 < m.height)
    (hha : ∀ y ∈ m.hAvenues, 1 ≤ y ∧ y < (m.height : Int))
    (hva : ∀ x ∈ m.vAvenues, 0 ≤ x ∧ x < (m.width : Int) - 1)
    (hcars : ∀ c ∈ m.cars, carOK m.width m.height c) :
    ∀ c ∈ (Model.step m).cars, carOK m.width m.height c := by
  have hm1 : ∀ c ∈ (trySpawnCars m).cars, carOK m.width m.height c := by
    intro c hc
    exact spawnFold_ok m.zones m.minuteOfDay m.baseSpawnScale m.rand
      (spawnPoints m.width m.height m.hAvenues m.vAvenues)
      (m.cars, m.uid, m.rcount) hcars
      (spawnPoints_inBounds hw hh hha hva) c hc
  intro c hc
  have hc2 : c ∈ (runCars (if (trySpawnCars m).signalMode = "adaptive" then
      updateLightsActuated (trySpawnCars m) else updateLightsFixed (trySpawnCars m))).cars := hc
  by_cases hmode : (trySpawnCars m).signalMode = "adaptive"
  · rw [if_pos hmode] at hc2
    simp only [runCars, List.mem_map, List.mem_filter] at hc2
    obtain ⟨p, ⟨hpmem, _⟩, rfl⟩ := hc2
    exact stepCarsAux_ok (updateLightsActuated (trySpawnCars m)) _ [] (by simp)
      hm1 p hpmem
  · rw [if_neg hmode] at hc2
    simp only [runCars, List.mem_map, List.mem_filter] at hc2
    obtain ⟨p, ⟨hpmem, _⟩, rfl⟩ := hc2
    exact stepCarsAux_ok (updateLightsFixed (trySpawnCars m)) _ [] (by simp)
      hm1 p hpmem

/-- C7 witness: the lane world satisfies all the hypotheses and its tick
keeps every live car inside the grid with speed within [0, vmax]. -/
theorem c7_bounds_invariant_witness :
    (∀ y ∈ mLane.hAvenues, 1 ≤ y ∧ y < (mLane.height : Int)) ∧
    (∀ c ∈ (Model.step mLane).cars, carOK mLane.width mLane.height c) :=
  ⟨by decide,
   c7_bounds_invariant mLane (by decide) (by decide) (by decide) (by decide)
     (by decide)⟩

/-- Insertion keeps exactly the members of the input list. -/
theorem mem_sortedInsert {x a : Int} :
    ∀ l : List Int, x ∈ sortedInsert a l ↔ x = a ∨ x ∈ l := by
  intro l
  induction l with
  | nil => simp [sortedInsert]
  | cons y ys ih =>
    simp only [sortedInsert]
    split
    · simp [List.mem_cons]
    · simp only [List.mem_cons, ih]
      tauto

/-- Sorting keeps exactly the members of the input list. -/
theorem mem_sortInts {x : Int} : ∀ l : List Int, x ∈ sortInts l ↔ x ∈ l := by
  intro l
  induction l with
  | nil => simp [sortInts]
  | cons y ys ih =>
    simp only [sortInts, List.foldr_cons] at *
    rw [mem_sortedInsert, ih, List.mem_cons]

/-- Horizontal avenues produced by the builder satisfy 1 ≤ y < height. -/
theorem mem_defineAvenues_h {w h : Nat} {y : Int}
    (hy : y ∈ (defineAvenues w h).1) : 1 ≤ y ∧ y < (h : Int) := by
  simp only [defineAvenues] at hy
  rw [mem_sortInts] at hy
  rcases List.mem_filter.mp (List.mem_dedup.mp hy) with ⟨_, hcond⟩
  exact of_decide_eq_true hcond

/-- Vertical avenues produced by the builder satisfy 0 ≤ x < width - 1. -/
theorem mem_defineAvenues_v {w h : Nat} {x : Int}
    (hx : x ∈ (defineAvenues w h).2) : 0 ≤ x ∧ x < (w : Int) - 1 := by
  simp only [defineAvenues] at hx
  rw [mem_sortInts] at hx
  rcases List.mem_filter.mp (List.mem_dedup.mp hx) with ⟨_, hcond⟩
  exact of_decide_eq_true hcond

/-- Every placed intersection spec yields a cell at its position. -/
theorem mkInterCells_pos {off : Nat} {pb : (Int × Int) × Bool} :
    ∀ (l : List ((Int × Int) × Bool)) (n : Nat), pb ∈ l →
    ∃ cell ∈ mkInterCells off n l, cell.pos = pb.1 := by
  intro l
  induction l with
  | nil => intro n hmem; cases hmem
  | cons e es ih =>
    intro n hmem
    rcases List.mem_cons.mp hmem with rfl | hmem
    · exact ⟨_, List.mem_cons_self _ _, rfl⟩
    · obtain ⟨cell, hc, hpos⟩ := ih (n + 1) hmem
      exact ⟨cell, List.mem_cons_of_mem _ hc, hpos⟩

/-- _get_intersection finds a cell whenever one sits at the position. -/
theorem getInter_isSome {inters : List InterCell} {p : Int × Int}
    (hex : ∃ c ∈ inters, c.pos = p) :
    (getIntersection inters p).isSome = true := by
  unfold getIntersection
  rw [List.find?_isSome]
  obtain ⟨c, hc, hp⟩ := hex
  exact ⟨c, hc, by simp [hp]⟩

/-- C8: after construction, each of the four cells of every avenue crossing
holds an IntersectionAgent, so _road_direction_ok permits entry to cars of
every direction there — the intersection overrides the lane-direction
restriction at every crossing cell. -/
theorem c8_intersection_override (w h : Nat) (scale : ℚ) (f : Nat → ℚ) :
    ∀ yE ∈ (buildModel w h scale f).hAvenues,
    ∀ xN ∈ (buildModel w h scale f).vAvenues,
    ∀ p ∈ crossCells xN yE,
      (getIntersection (buildModel w h scale f).inters p).isSome = true ∧
      ∀ d : Dir, roadDirectionOk (buildModel w h scale f).roads
        (buildModel w h scale f).inters p d = true := by
  intro yE hyE xN hxN p hp
  have hyb : 1 ≤ yE ∧ yE < (h : Int) := mem_defineAvenues_h (w := w) (h := h) hyE
  have hxb : 0 ≤ xN ∧ xN < (w : Int) - 1 := mem_defineAvenues_v (w := w) (h := h) hxN
  have hpb : 0 ≤ p.1 ∧ p.1 < (w : Int) ∧ 0 ≤ p.2 ∧ p.2 < (h : Int) := by
    simp only [crossCells, List.mem_cons, List.not_mem_nil, or_false] at hp
    rcases hp with rfl | rfl | rfl | rfl <;> dsimp only <;> omega
  have hspec : ∃ b, (p, b) ∈
      interSpecs w h (defineAvenues w h).1 (defineAvenues w h).2 := by
    exact ⟨_, List.mem_flatMap.mpr ⟨yE, hyE, List.mem_flatMap.mpr ⟨xN, hxN,
      List.mem_map.mpr ⟨p, List.mem_filter.mpr ⟨hp, decide_eq_true hpb⟩, rfl⟩⟩⟩⟩
  have hex : ∃ cell ∈ (buildModel w h scale f).inters, cell.pos = p := by
    obtain ⟨b, hb⟩ := hspec
    obtain ⟨cell, hc, hpos⟩ := mkInterCells_pos _ 0 hb
    exact ⟨cell, hc, hpos⟩
  have hsome := getInter_isSome hex
  refine ⟨hsome, fun d => ?_⟩
  obtain ⟨i, hi⟩ := Option.isSome_iff_exists.mp hsome
  exact roadOk_of_getInter d hi

/-- C8 witness: in the default 30 x 30 world the central crossing cell
(15, 15) holds an intersection and admits all four directions. -/
theorem c8_intersection_override_witness :
    (getIntersection (buildModel 30 30 1 (fun _ => 1/2)).inters (15, 15)).isSome = true ∧
    ∀ d : Dir, roadDirectionOk (buildModel 30 30 1 (fun _ => 1/2)).roads
      (buildModel 30 30 1 (fun _ => 1/2)).inters (15, 15) d = true :=
  c8_intersection_override 30 30 1 (fun _ => 1/2) 15 (by decide) 15 (by decide)
    (15, 15) (by decide)

/-- groupsFlat of a cons. -/
theorem groupsFlat_cons (g : (Int × Int) × List Nat) (gs : List ((Int × Int) × List Nat)) :
    groupsFlat (g :: gs) = g.2 ++ groupsFlat gs := rfl

/-- An index is in the flattened groups iff some bucket holds it. -/
theorem mem_groupsFlat {i : Nat} :
    ∀ gs : List ((Int × Int) × List Nat), i ∈ groupsFlat gs ↔ ∃ g ∈ gs, i ∈ g.2 := by
  intro gs
  induction gs with
  | nil => simp [groupsFlat]
  | cons g gs ih =>
    simp only [groupsFlat_cons, List.mem_append, ih, List.mem_cons]
    constructor
    · rintro (hg | ⟨g', hg', hi⟩)
      · exact ⟨g, Or.inl rfl, hg⟩
      · exact ⟨g', Or.inr hg', hi⟩
    · rintro ⟨g', (rfl | hg'), hi⟩
      · exact Or.inl hi
      · exact Or.inr ⟨g', hg', hi⟩

/-- Appending an index to one bucket permutes the flattened groups with that
index in front. -/
theorem flat_addToGroups (k : Int × Int) (n : Nat) :
    ∀ gs : List ((Int × Int) × List Nat),
    List.Perm (groupsFlat (addToGroups k n gs)) (n :: groupsFlat gs) := by
  intro gs
  induction gs with
  | nil => simp [addToGroups, groupsFlat]
  | cons g gs ih =>
    obtain ⟨k', l⟩ := g
    simp only [addToGroups]
    split
    · simp only [groupsFlat_cons]
      have : (l ++ [n]) ++ groupsFlat gs = l ++ n :: groupsFlat gs := by simp
      rw [this]
      exact List.perm_middle
    · simp only [groupsFlat_cons]
      exact List.Perm.trans (ih.append_left l) List.perm_middle

/-- The group scan distributes each agent index to at most one bucket, so
the flattened groups are duplicate-free and bounded by the list length. -/
theorem buildGroupsAux_nodup (va ha : List Int) :
    ∀ (l : List InterCell) (i : Nat) (acc : List ((Int × Int) × List Nat)),
    (groupsFlat acc).Nodup → (∀ j ∈ groupsFlat acc, j < i) →
    (groupsFlat (buildGroupsAux va ha i acc l)).Nodup ∧
    (∀ j ∈ groupsFlat (buildGroupsAux va ha i acc l), j < i + l.length) := by
  intro l
  induction l with
  | nil =>
    intro i acc hnd hlt
    exact ⟨hnd, fun j hj => by simpa using Nat.lt_of_lt_of_le (hlt j hj) (Nat.le_refl i)⟩
  | cons c cs ih =>
    intro i acc hnd hlt
    simp only [buildGroupsAux]
    have key : ∀ acc' : List ((Int × Int) × List Nat),
        (groupsFlat acc').Nodup → (∀ j ∈ groupsFlat acc', j < i + 1) →
        (groupsFlat (buildGroupsAux va ha (i + 1) acc' cs)).Nodup ∧
        (∀ j ∈ groupsFlat (buildGroupsAux va ha (i + 1) acc' cs),
          j < i + (c :: cs).length) := by
      intro acc' h1 h2
      obtain ⟨r1, r2⟩ := ih (i + 1) acc' h1 h2
      exact ⟨r1, fun j hj => by have := r2 j hj; simp only [List.length_cons]; omega⟩
    split
    · split
      · next k hk =>
        have hperm := flat_addToGroups k i acc
        refine key _ ?_ ?_
        · rw [hperm.nodup_iff]
          exact List.nodup_cons.mpr ⟨fun hmem => absurd (hlt i hmem) (by omega), hnd⟩
        · intro j hj
          rcases List.mem_cons.mp ((hperm.mem_iff).mp hj) with rfl | hj
          · omega
          · exact Nat.lt_succ_of_lt (hlt j hj)
      · exact key acc hnd (fun j hj => Nat.lt_succ_of_lt (hlt j hj))
    · exact key acc hnd (fun j hj => Nat.lt_succ_of_lt (hlt j hj))

/-- The flattened cluster indices are duplicate-free and in range. -/
theorem interGroups_nodup (va ha : List Int) (inters : List InterCell) :
    (groupsFlat (interGroups va ha inters)).Nodup ∧
    ∀ j ∈ groupsFlat (interGroups va ha inters), j < inters.length := by
  have := buildGroupsAux_nodup va ha inters 0 []
    (by simp [groupsFlat]) (by simp [groupsFlat])
  simpa [interGroups] using this

/-- Pointwise description of the synchronisation pass. -/
theorem applySyncAux_getD (mem : List Nat) (v : InterCell) :
    ∀ (l : List InterCell) (i j : Nat) (d : InterCell),
    (applySyncAux mem v i l).getD j d =
      if i + j ∈ mem ∧ j < l.length then syncVals v (l.getD j d) else l.getD j d := by
  intro l
  induction l with
  | nil =>
    intro i j d
    simp [applySyncAux]
  | cons r rest ih =>
    intro i j d
    cases j with
    | zero =>
      simp only [applySyncAux, List.getD_cons_zero, Nat.add_zero,
        List.length_cons, Nat.zero_lt_succ, and_true]
    | succ j =>
      simp only [applySyncAux, List.getD_cons_succ, List.length_cons]
      rw [ih (i + 1) j d]
      have harith : i + 1 + j = i + (j + 1) := by omega
      rw [harith]
      exact if_congr (and_congr_right fun _ => Nat.succ_lt_succ_iff.symm) rfl rfl

/-- The synchronisation pass keeps the list length. -/
theorem applySync_length (mem : List Nat) (v : InterCell) :
    ∀ (l : List InterCell) (i : Nat), (applySyncAux mem v i l).length = l.length := by
  intro l
  induction l with
  | nil => intro i; rfl
  | cons r rest ih => intro i; simp [applySyncAux, ih]

/-- A member index receives the reference values. -/
theorem applySync_getD_mem {mem : List Nat} {v : InterCell} {l : List InterCell}
    {j : Nat} (hj : j ∈ mem) (hlen : j < l.length) :
    (applySync mem v l).getD j dummyInter = syncVals v (l.getD j dummyInter) := by
  unfold applySync
  rw [applySyncAux_getD]
  rw [if_pos ⟨by simpa using hj, hlen⟩]

/-- A non-member index is untouched. -/
theorem applySync_getD_notmem {mem : List Nat} {v : InterCell} {l : List InterCell}
    {j : Nat} (hj : j ∉ mem) :
    (applySync mem v l).getD j dummyInter = l.getD j dummyInter := by
  unfold applySync
  rw [applySyncAux_getD]
  rw [if_neg (by simp; intro hmem; exact absurd (by simpa using hmem) hj)]

/-- Folding the per-cluster updates over clusters that avoid an index leaves
that index untouched. -/
theorem foldSync_untouched (F : List InterCell → ((Int × Int) × List Nat) → InterCell) :
    ∀ (gs : List ((Int × Int) × List Nat)) (l : List InterCell) (j : Nat),
    (∀ g ∈ gs, j ∉ g.2) →
    (gs.foldl (fun l' g => applySync g.2 (F l' g) l') l).getD j dummyInter =
      l.getD j dummyInter := by
  intro gs
  induction gs with
  | nil => intro l j _; rfl
  | cons g gs ih =>
    intro l j hj
    simp only [List.foldl_cons]
    rw [ih _ j (fun g' hg' => hj g' (List.mem_cons_of_mem g hg'))]
    exact applySync_getD_notmem (hj g (List.mem_cons_self g gs))

/-- The cluster-update fold keeps the list length. -/
theorem foldSync_length (F : List InterCell → ((Int × Int) × List Nat) → InterCell) :
    ∀ (gs : List ((Int × Int) × List Nat)) (l : List InterCell),
    (gs.foldl (fun l' g => applySync g.2 (F l' g) l') l).length = l.length := by
  intro gs
  induction gs with
  | nil => intro l; rfl
  | cons g gs ih =>
    intro l
    simp only [List.foldl_cons]
    rw [ih]
    exact applySync_length g.2 (F l g) l 0

/-- After folding any per-cluster value function over index-disjoint
clusters, all members of each cluster carry one common phase/timer/cycle. -/
theorem foldSync_agree (F : List InterCell → ((Int × Int) × List Nat) → InterCell) :
    ∀ (gs : List ((Int × Int) × List Nat)) (l : List InterCell)
      (k : Int × Int) (mem : List Nat),
    (k, mem) ∈ gs → (groupsFlat gs).Nodup →
    (∀ j ∈ groupsFlat gs, j < l.length) →
    ∃ ph t cy, ∀ j ∈ mem,
      ((gs.foldl (fun l' g => applySync g.2 (F l' g) l') l).getD j dummyInter).phase = ph ∧
      ((gs.foldl (fun l' g => applySync g.2 (F l' g) l') l).getD j dummyInter).t = t ∧
      ((gs.foldl (fun l' g => applySync g.2 (F l' g) l') l).getD j dummyInter).cycle = cy := by
  intro gs
  induction gs with
  | nil => intro l k mem hmem; cases hmem
  | cons g gs ih =>
    intro l k mem hmem hnd hlen
    have hnd' : (g.2 ++ groupsFlat gs).Nodup := by
      simpa [groupsFlat_cons] using hnd
    obtain ⟨hnd1, hnd2, hdisj⟩ := List.nodup_append.mp hnd'
    rcases List.mem_cons.mp hmem with heq | hmem'
    · refine ⟨(F l g).phase, (F l g).t, (F l g).cycle, ?_⟩
      intro j hj
      have hjg : j ∈ g.2 := by
        have h2 : g.2 = mem := by rw [← heq]
        rw [h2]
        exact hj
      have hjlen : j < l.length := hlen j (by
        rw [groupsFlat_cons]; exact List.mem_append.mpr (Or.inl hjg))
      have hnot : ∀ g' ∈ gs, j ∉ g'.2 := by
        intro g' hg' hjin
        exact hdisj hjg ((mem_groupsFlat gs).mpr ⟨g', hg', hjin⟩)
      simp only [List.foldl_cons]
      rw [foldSync_untouched F gs _ j hnot]
      rw [applySync_getD_mem hjg hjlen]
      exact ⟨rfl, rfl, rfl⟩
    · refine ih (applySync g.2 (F l g) l) k mem hmem' hnd2 ?_
      intro j hj
      rw [show (applySync g.2 (F l g) l).length = l.length from
        applySync_length g.2 (F l g) l 0]
      exact hlen j (by rw [groupsFlat_cons]; exact List.mem_append.mpr (Or.inr hj))

/-- The synchronisation pass preserves positions and signal flags. -/
theorem applySync_sig (mem : List Nat) (v : InterCell) :
    ∀ (l : List InterCell) (i : Nat), interSig (applySyncAux mem v i l) = interSig l := by
  intro l
  induction l with
  | nil => intro i; rfl
  | cons r rest ih =>
    intro i
    have ih' := ih (i + 1)
    simp only [interSig] at ih' ⊢
    simp only [applySyncAux, List.map_cons, ih']
    split <;> rfl

/-- The cluster-update fold preserves positions and signal flags. -/
theorem foldSync_sig (F : List InterCell → ((Int × Int) × List Nat) → InterCell) :
    ∀ (gs : List ((Int × Int) × List Nat)) (l : List InterCell),
    interSig (gs.foldl (fun l' g => applySync g.2 (F l' g) l') l) = interSig l := by
  intro gs
  induction gs with
  | nil => intro l; rfl
  | cons g gs ih =>
    intro l
    simp only [List.foldl_cons]
    rw [ih]
    exact applySync_sig g.2 (F l g) l 0

/-- The group scan only reads positions and signal flags. -/
theorem buildGroupsAux_sig (va ha : List Int) :
    ∀ (l1 l2 : List InterCell), interSig l1 = interSig l2 →
    ∀ (i : Nat) (acc : List ((Int × Int) × List Nat)),
    buildGroupsAux va ha i acc l1 = buildGroupsAux va ha i acc l2 := by
  intro l1
  induction l1 with
  | nil =>
    intro l2 hsig i acc
    cases l2 with
    | nil => rfl
    | cons c cs => simp [interSig] at hsig
  | cons c cs ih =>
    intro l2 hsig i acc
    cases l2 with
    | nil => simp [interSig] at hsig
    | cons c2 cs2 =>
      simp only [interSig, List.map_cons, List.cons.injEq, Prod.mk.injEq] at hsig
      obtain ⟨⟨hpos, hflag⟩, hrest⟩ := hsig
      simp only [buildGroupsAux, hpos, hflag]
      exact ih cs2 hrest (i + 1) _

/-- C5: after any tick, under either signal policy, every signal-controlled
cluster's member cells all carry an identical phase, an identical timer
value and an identical cycle length. -/
theorem c5_cluster_sync (m : Model) :
    ∀ (k : Int × Int) (mem : List Nat),
    (k, mem) ∈ interGroups m.vAvenues m.hAvenues (Model.step m).inters →
    ∀ i ∈ mem, ∀ j ∈ mem,
      (((Model.step m).inters.getD i dummyInter).phase =
        ((Model.step m).inters.getD j dummyInter).phase) ∧
      (((Model.step m).inters.getD i dummyInter).t =
        ((Model.step m).inters.getD j dummyInter).t) ∧
      (((Model.step m).inters.getD i dummyInter).cycle =
        ((Model.step m).inters.getD j dummyInter).cycle) := by
  intro k mem hmem i hi j hj
  by_cases hmode : (trySpawnCars m).signalMode = "adaptive"
  · have hL : (Model.step m).inters =
        (interGroups m.vAvenues m.hAvenues m.inters).foldl
          (fun l' g => applySync g.2
            ((fun l'' g' => actuatedGroupNext m.lightCycle m.minGreenTime
              (countQueueForGroup m.width m.height m.detectionRange
                (trySpawnCars m).cars g'.1).1
              (countQueueForGroup m.width m.height m.detectionRange
                (trySpawnCars m).cars g'.1).2
              (refInter l'' g'.2)) l' g) l')
          m.inters := by
      simp only [Model.step]
      rw [if_pos hmode]
      rfl
    have hgroups : interGroups m.vAvenues m.hAvenues (Model.step m).inters =
        interGroups m.vAvenues m.hAvenues m.inters := by
      rw [hL]
      unfold interGroups
      exact buildGroupsAux_sig m.vAvenues m.hAvenues _ _ (foldSync_sig _ _ m.inters) 0 []
    rw [hgroups] at hmem
    obtain ⟨hnd, hbound⟩ := interGroups_nodup m.vAvenues m.hAvenues m.inters
    obtain ⟨ph, t, cy, hall⟩ := foldSync_agree _
      (interGroups m.vAvenues m.hAvenues m.inters) m.inters k mem hmem hnd hbound
    have hi' := hall i hi
    have hj' := hall j hj
    rw [hL]
    exact ⟨hi'.1.trans hj'.1.symm, hi'.2.1.trans hj'.2.1.symm,
      hi'.2.2.trans hj'.2.2.symm⟩
  · have hL : (Model.step m).inters =
        (interGroups m.vAvenues m.hAvenues m.inters).foldl
          (fun l' g => applySync g.2
            ((fun l'' g' => fixedGroupNext m.lightCycle (refInter l'' g'.2)) l' g) l')
          m.inters := by
      simp only [Model.step]
      rw [if_neg hmode]
      rfl
    have hgroups : interGroups m.vAvenues m.hAvenues (Model.step m).inters =
        interGroups m.vAvenues m.hAvenues m.inters := by
      rw [hL]
      unfold interGroups
      exact buildGroupsAux_sig m.vAvenues m.hAvenues _ _ (foldSync_sig _ _ m.inters) 0 []
    rw [hgroups] at hmem
    obtain ⟨hnd, hbound⟩ := interGroups_nodup m.vAvenues m.hAvenues m.inters
    obtain ⟨ph, t, cy, hall⟩ := foldSync_agree _
      (interGroups m.vAvenues m.hAvenues m.inters) m.inters k mem hmem hnd hbound
    have hi' := hall i hi
    have hj' := hall j hj
    rw [hL]
    exact ⟨hi'.1.trans hj'.1.symm, hi'.2.1.trans hj'.2.1.symm,
      hi'.2.2.trans hj'.2.2.symm⟩

/-- C5 witness: after one adaptive tick of the mSig world, the first and
fourth member cells of the cluster keyed (1,1) agree on phase, timer and
cycle. -/
theorem c5_cluster_sync_witness :
    (((Model.step mSig).inters.getD 0 dummyInter).phase =
      ((Model.step mSig).inters.getD 3 dummyInter).phase) ∧
    (((Model.step mSig).inters.getD 0 dummyInter).t =
      ((Model.step mSig).inters.getD 3 dummyInter).t) ∧
    (((Model.step mSig).inters.getD 0 dummyInter).cycle =
      ((Model.step mSig).inters.getD 3 dummyInter).cycle) :=
  c5_cluster_sync mSig (1, 1) [0, 1, 2, 3] (by decide) 0 (by decide) 3 (by decide)

